import Mathlib

/-!
Shallow embedding of the pyb_utils wrapper layer
(`pyb_utils/named_tuples.py` and `pyb_utils/robots.py`) over the external
physics engine, together with proofs about its construction, query and
command operations.

The engine itself is external: we model the slice of its state and of its
documented positional-tuple contracts that this layer reads and writes.
Scalar physical quantities are modelled as rationals.
-/

/-- A Cartesian 3-tuple of the engine, with rational coordinates. -/
abbrev Vec3 := ℚ × ℚ × ℚ

/-- A quaternion given by its four components in x, y, z, w order, the
component order the engine uses. -/
abbrev Quat := ℚ × ℚ × ℚ × ℚ

/-- `np.array` applied to a Cartesian 3-tuple: the list of its three
components in order. -/
def vec3ToList (v : Vec3) : List ℚ := [v.1, v.2.1, v.2.2]

/-- `np.array` applied to an x,y,z,w quaternion tuple: the list of its four
components in order. -/
def quatToList (v : Quat) : List ℚ := [v.1, v.2.1, v.2.2.1, v.2.2.2]

/-- Modelled from the spec: the joint-info adapter (`getJointInfo` in
`named_tuples`, imported by `robots.py` but absent from the sources)
produces a record with at least `jointIndex` and `jointName` fields, the
name decoded from the engine's byte string with the requested text
encoding.  We model the record directly with its decoded name. -/
structure JointInfo where
  jointIndex : Nat
  jointName : String
deriving DecidableEq

/-- The engine's `getLinkState` positional tuple: the link center-of-mass
world pose sits at positions 0 and 1, the local inertial frame offset at
positions 2 and 3, the URDF link frame world pose at positions 4 and 5,
and (when link velocities are requested) the world-frame linear and
angular velocities at the final two positions. -/
structure LinkState where
  linkWorldPosition : Vec3
  linkWorldOrientation : Quat
  localInertialFramePosition : Vec3
  localInertialFrameOrientation : Quat
  worldLinkFramePosition : Vec3
  worldLinkFrameOrientation : Quat
  worldLinkLinearVelocity : Vec3
  worldLinkAngularVelocity : Vec3
deriving DecidableEq

/-- The slice of the external engine's state visible to this layer: per
body (keyed by uid) the joint count; per joint the decoded info record,
the position, the velocity and the standing velocity-control target; per
link the link state; and the analytic Jacobian routine, whose linear and
angular blocks are given entrywise (row in `Fin 3`, column by joint). -/
structure Engine where
  numJoints : Nat → Nat
  jointInfo : Nat → Nat → JointInfo
  jointPosition : Nat → Nat → ℚ
  jointVelocity : Nat → Nat → ℚ
  targetVelocity : Nat → Nat → ℚ
  linkState : Nat → Nat → LinkState
  jacLin : Nat → Nat → List ℚ → List ℚ → List ℚ → List ℚ → Fin 3 → Nat → ℚ
  jacAng : Nat → Nat → List ℚ → List ℚ → List ℚ → List ℚ → Fin 3 → Nat → ℚ

/-- `pyb.getJointStates(uid, jointIndices)`: one state tuple per requested
joint, in request order; this layer reads entries 0 (position) and 1
(velocity) of each tuple, so we model each state as that pair. -/
def Engine.getJointStates (s : Engine) (uid : Nat) (jointIndices : List Nat) :
    List (ℚ × ℚ) :=
  jointIndices.map fun i => (s.jointPosition uid i, s.jointVelocity uid i)

/-- `pyb.resetJointState(uid, idx, angle)`: overrides the joint's position
with `angle`; the engine also resets that joint's velocity to its default
of zero. -/
def Engine.resetJointState (s : Engine) (uid idx : Nat) (angle : ℚ) : Engine :=
  { s with
    jointPosition := fun u j =>
      if u = uid ∧ j = idx then angle else s.jointPosition u j
    jointVelocity := fun u j =>
      if u = uid ∧ j = idx then 0 else s.jointVelocity u j }

/-- `pyb.setJointMotorControlArray(uid, jointIndices,
controlMode=VELOCITY_CONTROL, targetVelocities)`: records one standing
velocity target per joint, pairing the index list with the target list
(the shorter of the two bounds the pairs applied). -/
def Engine.setJointMotorControlArray (s : Engine) (uid : Nat)
    (jointIndices : List Nat) (targetVelocities : List ℚ) : Engine :=
  (jointIndices.zip targetVelocities).foldl
    (fun st p =>
      { st with targetVelocity := fun u j =>
          if u = uid ∧ j = p.1 then p.2 else st.targetVelocity u j })
    s

/-- `pyb.calculateJacobian(uid, linkIdx, localPosition, objPositions,
objVelocities, objAccelerations)`: the pair of the linear and angular
Jacobian blocks, each a 3-row matrix with one column per entry of the
position argument. -/
def Engine.calculateJacobian (s : Engine) (uid linkIdx : Nat)
    (localPosition q v a : List ℚ) : List (List ℚ) × List (List ℚ) :=
  (List.ofFn fun i : Fin 3 =>
      (List.range q.length).map (s.jacLin uid linkIdx localPosition q v a i),
   List.ofFn fun i : Fin 3 =>
      (List.range q.length).map (s.jacAng uid linkIdx localPosition q v a i))

/-- Modelled from the spec: `getJointInfo(uid, i, decode="utf-8")` returns
the joint-info record of joint `i` of body `uid` with its name decoded. -/
def getJointInfo (s : Engine) (uid i : Nat) : JointInfo :=
  s.jointInfo uid i

/-- The exceptions `Robot.__init__` can raise: the explicit `ValueError`
for an unmatched tool joint name, and Python's `IndexError` from indexing
an empty joint-index list at position -1. -/
inductive InitError where
  | valueError (msg : String)
  | indexError
deriving DecidableEq

/-- The `Robot` wrapper's own state, fixed at construction: the body uid,
the joint count, the joint index list and the resolved tool joint index. -/
structure Robot where
  uid : Nat
  num_joints : Nat
  _joint_indices : List Nat
  tool_idx : Nat
deriving DecidableEq

/-- `Robot.__init__(uid, tool_joint_name=None)`.  Stores the uid, the
joint count and the index list `list(range(num_joints))`; with no tool
joint name takes `_joint_indices[-1]` (an `IndexError` on an empty list),
otherwise scans joints in index order for the first whose decoded name
equals the given name, taking its `jointIndex`, and raises `ValueError`
when no joint matches. -/
def Robot.init (s : Engine) (uid : Nat) (tool_joint_name : Option String) :
    Except InitError Robot :=
  let num_joints := s.numJoints uid
  let joint_indices := List.range num_joints
  match tool_joint_name with
  | none =>
    match joint_indices.getLast? with
    | none => .error .indexError
    | some t =>
      .ok { uid := uid, num_joints := num_joints,
            _joint_indices := joint_indices, tool_idx := t }
  | some name =>
    match joint_indices.find? (fun i => (getJointInfo s uid i).jointName == name) with
    | some i =>
      .ok { uid := uid, num_joints := num_joints,
            _joint_indices := joint_indices,
            tool_idx := (getJointInfo s uid i).jointIndex }
    | none => .error (.valueError s!"No joint with name {name} found.")

/-- `Robot.get_joint_states()`: queries the states of `_joint_indices` and
returns the vector of entries 0 (positions) and the vector of entries 1
(velocities). -/
def Robot.get_joint_states (r : Robot) (s : Engine) : List ℚ × List ℚ :=
  let states := s.getJointStates r.uid r._joint_indices
  (states.map Prod.fst, states.map Prod.snd)

/-- `Robot.reset_joint_configuration(q)`: for each pair of
`zip(_joint_indices, q)` in order, resets that joint's state to the paired
value. -/
def Robot.reset_joint_configuration (r : Robot) (s : Engine) (q : List ℚ) :
    Engine :=
  (r._joint_indices.zip q).foldl
    (fun st p => st.resetJointState r.uid p.1 p.2) s

/-- `Robot.command_velocity(u)`: forwards `_joint_indices` and `list(u)`
to the engine's motor-control array call in velocity mode. -/
def Robot.command_velocity (r : Robot) (s : Engine) (u : List ℚ) : Engine :=
  s.setJointMotorControlArray r.uid r._joint_indices u

/-- `Robot.get_link_pose(link_idx=None)`: defaults the link to `tool_idx`,
queries the link state with forward kinematics and returns `state[4]` and
`state[5]` as arrays. -/
def Robot.get_link_pose (r : Robot) (s : Engine) (link_idx : Option Nat) :
    List ℚ × List ℚ :=
  let idx := link_idx.getD r.tool_idx
  let state := s.linkState r.uid idx
  (vec3ToList state.worldLinkFramePosition,
   quatToList state.worldLinkFrameOrientation)

/-- `Robot.jacobian(q=None, link_idx=None, offset=None)`: defaults `q` to
the current joint positions, `offset` to `np.zeros(3)` and `link_idx` to
`tool_idx`; passes zero vectors of the length of `q` for the velocity and
acceleration arguments and stacks the linear block on top of the angular
block. -/
def Robot.jacobian (r : Robot) (s : Engine) (q : Option (List ℚ))
    (link_idx : Option Nat) (offset : Option (List ℚ)) : List (List ℚ) :=
  let qv := q.getD (r.get_joint_states s).1
  let off := offset.getD (List.replicate 3 0)
  let idx := link_idx.getD r.tool_idx
  let z := List.replicate qv.length (0 : ℚ)
  let JvJw := s.calculateJacobian r.uid idx off qv z z
  JvJw.1 ++ JvJw.2

/-- The `DynamicsInfo` named tuple: twelve named fields, declared in the
engine's documented order, generic in the value type. -/
structure DynamicsInfo (α : Type) where
  mass : α
  lateralFriction : α
  localInertiaDiagonal : α
  localInerialPos : α
  localInertialOrn : α
  restitution : α
  rollingFriction : α
  spinningFriction : α
  contactDamping : α
  contactStiffness : α
  bodyType : α
  collisionMargin : α
deriving DecidableEq

/-- `DynamicsInfo(*t)`: the record built from the engine's 12-tuple, each
field bound positionally. -/
def DynamicsInfo.ofTuple {α : Type} (t : Fin 12 → α) : DynamicsInfo α :=
  ⟨t 0, t 1, t 2, t 3, t 4, t 5, t 6, t 7, t 8, t 9, t 10, t 11⟩

/-- The record's named fields listed in their declared order. -/
def DynamicsInfo.toList {α : Type} (d : DynamicsInfo α) : List α :=
  [d.mass, d.lateralFriction, d.localInertiaDiagonal, d.localInerialPos,
   d.localInertialOrn, d.restitution, d.rollingFriction, d.spinningFriction,
   d.contactDamping, d.contactStiffness, d.bodyType, d.collisionMargin]

/-- `getDynamicsInfo(bodyUniqueId, linkIndex, physicsClientId)`: wraps the
engine's raw 12-tuple (here the function `raw`, standing for
`pyb.getDynamicsInfo`) into a `DynamicsInfo` record positionally. -/
def getDynamicsInfo {α : Type} (raw : Nat → Int → Nat → Fin 12 → α)
    (bodyUniqueId : Nat) (linkIndex : Int) (physicsClientId : Nat) :
    DynamicsInfo α :=
  DynamicsInfo.ofTuple (raw bodyUniqueId linkIndex physicsClientId)

/-- The `ContactPoint` named tuple: fourteen named fields, declared in the
engine's documented order, generic in the value type. -/
structure ContactPoint (α : Type) where
  contactFlag : α
  bodyUniqueIdA : α
  bodyUniqueIdB : α
  linkIndexA : α
  linkIndexB : α
  positionOnA : α
  positionOnB : α
  contactNormalOnB : α
  contactDistance : α
  normalForce : α
  lateralFriction1 : α
  lateralFrictionDir1 : α
  lateralFriction2 : α
  lateralFrictionDir2 : α
deriving DecidableEq

/-- `ContactPoint(*point)`: the record built from one raw engine 14-tuple,
each field bound positionally. -/
def ContactPoint.ofTuple {α : Type} (t : Fin 14 → α) : ContactPoint α :=
  ⟨t 0, t 1, t 2, t 3, t 4, t 5, t 6, t 7, t 8, t 9, t 10, t 11, t 12, t 13⟩

/-- `getContactPoints(bodyA, bodyB, linkIndexA, linkIndexB,
physicsClientId)`: wraps each raw point of the engine's return (here the
function `raw`, standing for `pyb.getContactPoints`) into a
`ContactPoint`, preserving order. -/
def getContactPoints {α : Type}
    (raw : Int → Int → Int → Int → Nat → List (Fin 14 → α))
    (bodyA bodyB linkIndexA linkIndexB : Int) (physicsClientId : Nat) :
    List (ContactPoint α) :=
  (raw bodyA bodyB linkIndexA linkIndexB physicsClientId).map
    ContactPoint.ofTuple

/-! ### Helper lemmas about lists -/

/-- `find?` returns the element at the first index satisfying the
predicate. -/
theorem find?_of_first {α : Type} (p : α → Bool) :
    ∀ (l : List α) (i : Nat) (h : i < l.length),
      p (l.get ⟨i, h⟩) = true →
      (∀ j (hj : j < i), p (l.get ⟨j, Nat.lt_trans hj h⟩) = false) →
      l.find? p = some (l.get ⟨i, h⟩)
  | [], i, h, _, _ => absurd h (Nat.not_lt_zero i)
  | a :: l, 0, _, hp, _ => List.find?_cons_of_pos l hp
  | a :: l, i + 1, h, hp, hmin => by
    have ha : p a = false := hmin 0 (Nat.succ_pos i)
    rw [List.find?_cons_of_neg l (by simp [ha])]
    exact find?_of_first p l i (Nat.lt_of_succ_lt_succ h) hp
      (fun j hj => hmin (j + 1) (Nat.succ_lt_succ hj))

/-- The element built from position `j` of two lists is a member of their
zip. -/
theorem get_mem_zip {α β : Type} :
    ∀ (as : List α) (bs : List β) (j : Nat) (h1 : j < as.length)
      (h2 : j < bs.length),
      (as.get ⟨j, h1⟩, bs.get ⟨j, h2⟩) ∈ as.zip bs
  | [], _, j, h1, _ => absurd h1 (Nat.not_lt_zero j)
  | _ :: _, [], j, _, h2 => absurd h2 (Nat.not_lt_zero j)
  | a :: as, b :: bs, 0, _, _ => by simp [List.zip_cons_cons]
  | a :: as, b :: bs, j + 1, h1, h2 => by
    simp only [List.zip_cons_cons, List.mem_cons]
    exact Or.inr
      (get_mem_zip as bs j (Nat.lt_of_succ_lt_succ h1) (Nat.lt_of_succ_lt_succ h2))

/-- The first components of a zip are the first list truncated to the
second list's length. -/
theorem map_fst_zip_eq_take {α β : Type} :
    ∀ (as : List α) (bs : List β),
      (as.zip bs).map Prod.fst = as.take bs.length
  | [], _ => by simp
  | _ :: _, [] => by simp
  | a :: as, b :: bs => by
    simp only [List.zip_cons_cons, List.map_cons, List.length_cons,
      List.take_succ_cons]
    rw [map_fst_zip_eq_take as bs]

/-- Folding pairwise updates leaves an index that appears in no pair
unchanged, for any observation the single update acts on pointwise. -/
theorem foldl_upd_eq_of_not_mem {σ : Type} (upd : σ → Nat × ℚ → σ)
    (obs : σ → Nat → ℚ)
    (hne : ∀ st p j, j ≠ p.1 → obs (upd st p) j = obs st j) :
    ∀ (L : List (Nat × ℚ)) (s : σ) (j : Nat), j ∉ L.map Prod.fst →
      obs (L.foldl upd s) j = obs s j
  | [], _, _, _ => rfl
  | p :: L, s, j, hj => by
    simp only [List.map_cons, List.mem_cons, not_or] at hj
    rw [List.foldl_cons, foldl_upd_eq_of_not_mem upd obs hne L _ j hj.2,
      hne s p j hj.1]

/-- Folding pairwise updates writes the paired value at each index that
appears in exactly one pair. -/
theorem foldl_upd_eq_of_mem {σ : Type} (upd : σ → Nat × ℚ → σ)
    (obs : σ → Nat → ℚ)
    (heq : ∀ st p, obs (upd st p) p.1 = p.2)
    (hne : ∀ st p j, j ≠ p.1 → obs (upd st p) j = obs st j) :
    ∀ (L : List (Nat × ℚ)) (s : σ) (j : Nat) (a : ℚ),
      (L.map Prod.fst).Nodup → (j, a) ∈ L →
      obs (L.foldl upd s) j = a
  | [], _, _, _, _, hmem => absurd hmem (List.not_mem_nil _)
  | p :: L, s, j, a, hnd, hmem => by
    simp only [List.map_cons, List.nodup_cons] at hnd
    rcases List.mem_cons.mp hmem with h | h
    · subst h
      rw [List.foldl_cons,
        foldl_upd_eq_of_not_mem upd obs hne L _ _ hnd.1, heq]
    · rw [List.foldl_cons]
      exact foldl_upd_eq_of_mem upd obs heq hne L _ j a hnd.2 h

/-- A successful construction stores the uid, the engine's joint count and
the index list `range num_joints`. -/
theorem robot_init_ok_shape {s : Engine} {uid : Nat} {nm : Option String}
    {r : Robot} (h : Robot.init s uid nm = .ok r) :
    r.uid = uid ∧ r.num_joints = s.numJoints uid ∧
      r._joint_indices = List.range (s.numJoints uid) := by
  cases nm with
  | none =>
    simp only [Robot.init] at h
    cases hL : (List.range (s.numJoints uid)).getLast? with
    | none => rw [hL] at h; cases h
    | some t => rw [hL] at h; cases h; exact ⟨rfl, rfl, rfl⟩
  | some name =>
    simp only [Robot.init] at h
    cases hF : (List.range (s.numJoints uid)).find?
        (fun i => (getJointInfo s uid i).jointName == name) with
    | none => rw [hF] at h; cases h
    | some i => rw [hF] at h; cases h; exact ⟨rfl, rfl, rfl⟩

/-! ### Concrete engines used to evaluate the theorems -/

/-- A link state whose center-of-mass pose (tuple positions 0 and 1) and
URDF link frame pose (tuple positions 4 and 5) differ. -/
def sampleLink : LinkState where
  linkWorldPosition := (1, 2, 3)
  linkWorldOrientation := (0, 0, 0, 1)
  localInertialFramePosition := (1, 1, 1)
  localInertialFrameOrientation := (0, 0, 0, 1)
  worldLinkFramePosition := (4, 5, 6)
  worldLinkFrameOrientation := (0, 1, 0, 0)
  worldLinkLinearVelocity := (0, 0, 0)
  worldLinkAngularVelocity := (0, 0, 0)

/-- A small concrete engine: every body has two joints, named "a" and "b",
with engine joint indices 10 and 11; joint positions equal the joint
index. -/
def sampleEngine : Engine where
  numJoints := fun _ => 2
  jointInfo := fun _ i =>
    { jointIndex := 10 + i, jointName := if i = 0 then "a" else "b" }
  jointPosition := fun _ j => (j : ℚ)
  jointVelocity := fun _ _ => 0
  targetVelocity := fun _ _ => 0
  linkState := fun _ _ => sampleLink
  jacLin := fun _ _ _ _ _ _ _ _ => 0
  jacAng := fun _ _ _ _ _ _ _ _ => 0

/-- The sample engine with every body reporting zero joints. -/
def zeroJointEngine : Engine :=
  { sampleEngine with numJoints := fun _ => 0 }

/-! ### The claims -/

/-- C10: on a body with zero joints, constructing with no tool joint name
indexes the empty joint-index list at position -1 and raises `IndexError`;
no Robot is produced. -/
theorem robot_init_zero_joints (s : Engine) (uid : Nat)
    (h : s.numJoints uid = 0) :
    Robot.init s uid none = .error .indexError := by
  simp [Robot.init, h]

/-- Witness for C10: a concrete engine with zero joints. -/
theorem robot_init_zero_joints_witness :
    zeroJointEngine.numJoints 0 = 0 ∧
      Robot.init zeroJointEngine 0 none = .error .indexError :=
  ⟨rfl, robot_init_zero_joints zeroJointEngine 0 rfl⟩

/-- C5: constructing with no tool joint name on a body with at least one
joint succeeds and sets `tool_idx` to the last joint index,
`num_joints - 1`. -/
theorem robot_init_default_tool (s : Engine) (uid : Nat)
    (h : 0 < s.numJoints uid) :
    ∃ r, Robot.init s uid none = .ok r ∧
      r.tool_idx = s.numJoints uid - 1 ∧
      r.num_joints = s.numJoints uid := by
  have hn : s.numJoints uid ≠ 0 := Nat.pos_iff_ne_zero.mp h
  refine ⟨{ uid := uid, num_joints := s.numJoints uid,
            _joint_indices := List.range (s.numJoints uid),
            tool_idx := s.numJoints uid - 1 }, ?_, rfl, rfl⟩
  simp [Robot.init, List.getLast?_range, hn]

/-- Witness for C5: the sample engine with two joints yields
`tool_idx = 1`. -/
theorem robot_init_default_tool_witness :
    0 < sampleEngine.numJoints 0 ∧
      ∃ r, Robot.init sampleEngine 0 none = .ok r ∧
        r.tool_idx = sampleEngine.numJoints 0 - 1 ∧
        r.num_joints = sampleEngine.numJoints 0 :=
  ⟨by decide, robot_init_default_tool sampleEngine 0 (by decide)⟩

/-- C1: constructing with a tool joint name scans joint info in index
order 0..num_joints-1; it succeeds iff some joint of the body bears the
given decoded name, in which case `tool_idx` is the `jointIndex` of the
first matching joint; otherwise it raises the descriptive `ValueError`
and no Robot is produced. -/
theorem robot_init_named_tool (s : Engine) (uid : Nat) (name : String) :
    ((∃ r, Robot.init s uid (some name) = .ok r) ↔
        ∃ i, i < s.numJoints uid ∧ (s.jointInfo uid i).jointName = name) ∧
    (∀ i, i < s.numJoints uid →
      (s.jointInfo uid i).jointName = name →
      (∀ j, j < i → (s.jointInfo uid j).jointName ≠ name) →
      ∃ r, Robot.init s uid (some name) = .ok r ∧
        r.tool_idx = (s.jointInfo uid i).jointIndex) ∧
    ((∀ i, i < s.numJoints uid → (s.jointInfo uid i).jointName ≠ name) →
      Robot.init s uid (some name) =
        .error (.valueError s!"No joint with name {name} found.")) := by
  refine ⟨⟨?_, ?_⟩, ?_, ?_⟩
  · rintro ⟨r, hr⟩
    simp only [Robot.init] at hr
    cases hF : (List.range (s.numJoints uid)).find?
        (fun i => (getJointInfo s uid i).jointName == name) with
    | none => rw [hF] at hr; cases hr
    | some i =>
      have hmem := List.mem_of_find?_eq_some hF
      have hp := List.find?_some hF
      refine ⟨i, List.mem_range.mp hmem, ?_⟩
      simpa [getJointInfo] using hp
  · rintro ⟨i, hi, hname⟩
    cases hF : (List.range (s.numJoints uid)).find?
        (fun i => (getJointInfo s uid i).jointName == name) with
    | none =>
      rw [List.find?_eq_none] at hF
      have := hF i (List.mem_range.mpr hi)
      simp [getJointInfo, hname] at this
    | some j =>
      refine ⟨{ uid := uid, num_joints := s.numJoints uid,
                _joint_indices := List.range (s.numJoints uid),
                tool_idx := (getJointInfo s uid j).jointIndex }, ?_⟩
      simp only [Robot.init, hF]
  · intro i hi hname hfirst
    have hilen : i < (List.range (s.numJoints uid)).length := by simpa using hi
    have hF := find?_of_first
      (fun k => (getJointInfo s uid k).jointName == name)
      (List.range (s.numJoints uid)) i hilen
      (by simp [getJointInfo, hname])
      (by
        intro j hj
        simp only [List.get_eq_getElem, List.getElem_range, getJointInfo,
          beq_eq_false_iff_ne]
        exact hfirst j hj)
    simp only [List.get_eq_getElem, List.getElem_range] at hF
    refine ⟨{ uid := uid, num_joints := s.numJoints uid,
              _joint_indices := List.range (s.numJoints uid),
              tool_idx := (getJointInfo s uid i).jointIndex }, ?_, rfl⟩
    simp only [Robot.init, hF]
  · intro hall
    have hF : (List.range (s.numJoints uid)).find?
        (fun i => (getJointInfo s uid i).jointName == name) = none := by
      rw [List.find?_eq_none]
      intro x hx
      simp only [getJointInfo, beq_iff_eq]
      exact hall x (List.mem_range.mp hx)
    simp only [Robot.init, hF]

/-- Witness for C1: in the sample engine joint 1 is the first joint named
"b", so construction succeeds with `tool_idx = jointIndex 11`. -/
theorem robot_init_named_tool_witness :
    (∀ j, j < 1 → (sampleEngine.jointInfo 0 j).jointName ≠ "b") ∧
      ∃ r, Robot.init sampleEngine 0 (some "b") = .ok r ∧
        r.tool_idx = (sampleEngine.jointInfo 0 1).jointIndex :=
  ⟨by decide,
    (robot_init_named_tool sampleEngine 0 "b").2.1 1 (by decide) (by decide)
      (by decide)⟩

/-- The Robot the sample engine yields for body 0 with no tool name. -/
def sampleRobot : Robot :=
  { uid := 0, num_joints := 2, _joint_indices := [0, 1], tool_idx := 1 }

/-- C8: every constructed Robot has `len(_joint_indices) = num_joints`,
and `get_joint_states` returns a pair of vectors of length `num_joints`
whose i-th entries are the engine's position and velocity for joint index
i. -/
theorem get_joint_states_lengths (s : Engine) (uid : Nat)
    (nm : Option String) (r : Robot) (h : Robot.init s uid nm = .ok r) :
    r._joint_indices.length = r.num_joints ∧
      (r.get_joint_states s).1.length = r.num_joints ∧
      (r.get_joint_states s).2.length = r.num_joints ∧
      ∀ i, i < r.num_joints →
        (r.get_joint_states s).1.getD i 0 = s.jointPosition r.uid i ∧
        (r.get_joint_states s).2.getD i 0 = s.jointVelocity r.uid i := by
  obtain ⟨hu, hn, hidx⟩ := robot_init_ok_shape h
  have h1 : (r.get_joint_states s).1 =
      (List.range (s.numJoints uid)).map (s.jointPosition r.uid) := by
    simp [Robot.get_joint_states, Engine.getJointStates, hidx,
      List.map_map, Function.comp]
  have h2 : (r.get_joint_states s).2 =
      (List.range (s.numJoints uid)).map (s.jointVelocity r.uid) := by
    simp [Robot.get_joint_states, Engine.getJointStates, hidx,
      List.map_map, Function.comp]
  refine ⟨by simp [hidx, hn], by simp [h1, hn], by simp [h2, hn], ?_⟩
  intro i hi
  rw [hn] at hi
  constructor
  · rw [h1, List.getD_eq_getElem _ _ (by simpa using hi)]
    simp
  · rw [h2, List.getD_eq_getElem _ _ (by simpa using hi)]
    simp

/-- Witness for C8: the sample engine's Robot at body 0. -/
theorem get_joint_states_lengths_witness :
    Robot.init sampleEngine 0 none = .ok sampleRobot ∧
      (sampleRobot._joint_indices.length = sampleRobot.num_joints ∧
        (sampleRobot.get_joint_states sampleEngine).1.length =
          sampleRobot.num_joints ∧
        (sampleRobot.get_joint_states sampleEngine).2.length =
          sampleRobot.num_joints ∧
        ∀ i, i < sampleRobot.num_joints →
          (sampleRobot.get_joint_states sampleEngine).1.getD i 0 =
            sampleEngine.jointPosition sampleRobot.uid i ∧
          (sampleRobot.get_joint_states sampleEngine).2.getD i 0 =
            sampleEngine.jointVelocity sampleRobot.uid i) :=
  ⟨rfl, get_joint_states_lengths sampleEngine 0 none sampleRobot rfl⟩

/-- C2: `reset_joint_configuration` and `command_velocity` validate
nothing and act on exactly the first min(len(sequence), num_joints)
joints: below that bound the joint takes the paired value, at or above it
the engine state is unchanged, and no error is raised (both operations
are total). -/
theorem reset_and_command_truncate (s : Engine) (r : Robot) (q u : List ℚ)
    (hr : r._joint_indices = List.range r.num_joints) (j : Nat) :
    (r.reset_joint_configuration s q).jointPosition r.uid j =
      (if j < min r.num_joints q.length then q.getD j 0
       else s.jointPosition r.uid j) ∧
    (r.command_velocity s u).targetVelocity r.uid j =
      (if j < min r.num_joints u.length then u.getD j 0
       else s.targetVelocity r.uid j) := by
  constructor
  · by_cases hj : j < min r.num_joints q.length
    · have hj1 : j < r.num_joints := lt_of_lt_of_le hj (min_le_left _ _)
      have hj2 : j < q.length := lt_of_lt_of_le hj (min_le_right _ _)
      have hgd : q.getD j 0 = q.get ⟨j, hj2⟩ := by
        rw [List.getD_eq_getElem _ _ hj2, List.get_eq_getElem]
      rw [if_pos hj, hgd]
      have hmem : (j, q.get ⟨j, hj2⟩) ∈ (List.range r.num_joints).zip q := by
        have hg := get_mem_zip (List.range r.num_joints) q j
          (by simpa using hj1) hj2
        have hr2 : (List.range r.num_joints).get ⟨j, by simpa using hj1⟩ = j := by
          simp
        rw [hr2] at hg
        exact hg
      have hnd : (((List.range r.num_joints).zip q).map Prod.fst).Nodup := by
        rw [map_fst_zip_eq_take, List.take_range]
        exact List.nodup_range _
      unfold Robot.reset_joint_configuration
      rw [hr]
      exact foldl_upd_eq_of_mem
        (fun st p => st.resetJointState r.uid p.1 p.2)
        (fun st k => st.jointPosition r.uid k)
        (fun st p => by simp [Engine.resetJointState])
        (fun st p k hk => by simp [Engine.resetJointState, hk])
        _ s j _ hnd hmem
    · rw [if_neg hj]
      have hnotm : j ∉ ((List.range r.num_joints).zip q).map Prod.fst := by
        rw [map_fst_zip_eq_take, List.take_range, List.mem_range]
        omega
      unfold Robot.reset_joint_configuration
      rw [hr]
      exact foldl_upd_eq_of_not_mem
        (fun st p => st.resetJointState r.uid p.1 p.2)
        (fun st k => st.jointPosition r.uid k)
        (fun st p k hk => by simp [Engine.resetJointState, hk]) _ s j hnotm
  · by_cases hj : j < min r.num_joints u.length
    · have hj1 : j < r.num_joints := lt_of_lt_of_le hj (min_le_left _ _)
      have hj2 : j < u.length := lt_of_lt_of_le hj (min_le_right _ _)
      have hgd : u.getD j 0 = u.get ⟨j, hj2⟩ := by
        rw [List.getD_eq_getElem _ _ hj2, List.get_eq_getElem]
      rw [if_pos hj, hgd]
      have hmem : (j, u.get ⟨j, hj2⟩) ∈ (List.range r.num_joints).zip u := by
        have hg := get_mem_zip (List.range r.num_joints) u j
          (by simpa using hj1) hj2
        have hr2 : (List.range r.num_joints).get ⟨j, by simpa using hj1⟩ = j := by
          simp
        rw [hr2] at hg
        exact hg
      have hnd : (((List.range r.num_joints).zip u).map Prod.fst).Nodup := by
        rw [map_fst_zip_eq_take, List.take_range]
        exact List.nodup_range _
      unfold Robot.command_velocity Engine.setJointMotorControlArray
      rw [hr]
      exact foldl_upd_eq_of_mem
        (fun st p => { st with targetVelocity := fun a b =>
            if a = r.uid ∧ b = p.1 then p.2 else st.targetVelocity a b })
        (fun st k => st.targetVelocity r.uid k)
        (fun st p => by simp)
        (fun st p k hk => by simp [hk])
        _ s j _ hnd hmem
    · rw [if_neg hj]
      have hnotm : j ∉ ((List.range r.num_joints).zip u).map Prod.fst := by
        rw [map_fst_zip_eq_take, List.take_range, List.mem_range]
        omega
      unfold Robot.command_velocity Engine.setJointMotorControlArray
      rw [hr]
      exact foldl_upd_eq_of_not_mem
        (fun st p => { st with targetVelocity := fun a b =>
            if a = r.uid ∧ b = p.1 then p.2 else st.targetVelocity a b })
        (fun st k => st.targetVelocity r.uid k)
        (fun st p k hk => by simp [hk]) _ s j hnotm

/-- Witness for C2: a two-joint Robot given a one-element sequence. -/
theorem reset_and_command_truncate_witness :
    sampleRobot._joint_indices = List.range sampleRobot.num_joints ∧
      ((sampleRobot.reset_joint_configuration sampleEngine
          [5]).jointPosition sampleRobot.uid 1 =
        (if 1 < min sampleRobot.num_joints [(5 : ℚ)].length
         then [(5 : ℚ)].getD 1 0
         else sampleEngine.jointPosition sampleRobot.uid 1) ∧
       (sampleRobot.command_velocity sampleEngine
          [7]).targetVelocity sampleRobot.uid 1 =
        (if 1 < min sampleRobot.num_joints [(7 : ℚ)].length
         then [(7 : ℚ)].getD 1 0
         else sampleEngine.targetVelocity sampleRobot.uid 1)) :=
  ⟨by decide,
    reset_and_command_truncate sampleEngine sampleRobot [5] [7] (by decide) 1⟩

/-- C3 (code bug): `get_link_pose` is documented as the link
center-of-mass world pose, but it reads positions 4 and 5 of the link
state tuple — the URDF link frame pose — while the center-of-mass pose
sits at positions 0 and 1.  On the sample link, whose inertial frame is
offset, the returned pose is the frame pose, which differs from the
center-of-mass pose. -/
theorem get_link_pose_returns_frame_not_com :
    Robot.init sampleEngine 0 none = .ok sampleRobot ∧
      sampleRobot.get_link_pose sampleEngine none =
        (vec3ToList (sampleEngine.linkState 0 1).worldLinkFramePosition,
         quatToList (sampleEngine.linkState 0 1).worldLinkFrameOrientation) ∧
      vec3ToList (sampleEngine.linkState 0 1).worldLinkFramePosition ≠
        vec3ToList (sampleEngine.linkState 0 1).linkWorldPosition :=
  ⟨rfl, rfl, by decide⟩

/-- C4: `jacobian` stacks the engine's 3×n linear block on top of its 3×n
angular block, with defaults q = current joint positions,
offset = zeros(3) and link_idx = tool_idx; with no arguments the result
has shape (6, num_joints). -/
theorem jacobian_shape (s : Engine) (r : Robot)
    (hr : r._joint_indices = List.range r.num_joints) :
    (∀ q link off,
      r.jacobian s (some q) link off =
        (s.calculateJacobian r.uid (link.getD r.tool_idx)
            (off.getD (List.replicate 3 0)) q
            (List.replicate q.length 0) (List.replicate q.length 0)).1 ++
          (s.calculateJacobian r.uid (link.getD r.tool_idx)
            (off.getD (List.replicate 3 0)) q
            (List.replicate q.length 0) (List.replicate q.length 0)).2) ∧
    r.jacobian s none none none =
      r.jacobian s (some (r.get_joint_states s).1) (some r.tool_idx)
        (some (List.replicate 3 0)) ∧
    (r.jacobian s none none none).length = 6 ∧
    ∀ row ∈ r.jacobian s none none none, row.length = r.num_joints := by
  refine ⟨fun _ _ _ => rfl, rfl, ?_, ?_⟩
  · simp [Robot.jacobian, Engine.calculateJacobian]
  · intro row hrow
    have hq : (r.get_joint_states s).1.length = r.num_joints := by
      simp [Robot.get_joint_states, Engine.getJointStates, hr]
    simp only [Robot.jacobian, Engine.calculateJacobian, List.mem_append,
      List.mem_ofFn] at hrow
    rcases hrow with ⟨i, rfl⟩ | ⟨i, rfl⟩ <;> simp [hq]

/-- Witness for C4: on the sample Robot, `jacobian()` has 6 rows, each of
length `num_joints`. -/
theorem jacobian_shape_witness :
    sampleRobot._joint_indices = List.range sampleRobot.num_joints ∧
      (sampleRobot.jacobian sampleEngine none none none).length = 6 ∧
      ∀ row ∈ sampleRobot.jacobian sampleEngine none none none,
        row.length = sampleRobot.num_joints :=
  ⟨by decide, (jacobian_shape sampleEngine sampleRobot (by decide)).2.2⟩

/-- C9: with an explicit `q` the Jacobian does not depend on the robot's
current joint velocities: the wrapper passes zero vectors for the
engine's velocity and acceleration arguments, so changing the engine's
joint velocities arbitrarily leaves the result of an identical call
unchanged. -/
theorem jacobian_ignores_velocity (s : Engine) (f : Nat → Nat → ℚ)
    (r : Robot) (q : List ℚ) (link : Option Nat) (off : Option (List ℚ)) :
    Robot.jacobian r { s with jointVelocity := f } (some q) link off =
      Robot.jacobian r s (some q) link off := rfl

/-- C6: `getDynamicsInfo` returns a record of exactly 12 named fields in
the documented order whose i-th field equals the i-th element of the
engine's raw tuple. -/
theorem getDynamicsInfo_fields {α : Type} (raw : Nat → Int → Nat → Fin 12 → α)
    (b : Nat) (l : Int) (c : Nat) :
    (getDynamicsInfo raw b l c).toList.length = 12 ∧
    ∀ i : Fin 12,
      (getDynamicsInfo raw b l c).toList.get ⟨i.1, i.isLt⟩ = raw b l c i := by
  refine ⟨rfl, ?_⟩
  intro i
  fin_cases i <;> rfl

/-- C7: `getContactPoints` returns one `ContactPoint` per raw engine
point, in the engine's order, fields bound positionally; with no contacts
it returns the empty list and raises no error. -/
theorem getContactPoints_list {α : Type}
    (raw : Int → Int → Int → Int → Nat → List (Fin 14 → α))
    (a b la lb : Int) (c : Nat) :
    (getContactPoints raw a b la lb c).length = (raw a b la lb c).length ∧
    (∀ i (h : i < (raw a b la lb c).length),
      (getContactPoints raw a b la lb c).get
          ⟨i, by simpa [getContactPoints] using h⟩ =
        ContactPoint.ofTuple ((raw a b la lb c).get ⟨i, h⟩)) ∧
    (raw a b la lb c = [] → getContactPoints raw a b la lb c = []) := by
  refine ⟨by simp [getContactPoints], ?_, ?_⟩
  · intro i h
    simp [getContactPoints]
  · intro h
    simp [getContactPoints, h]

/-- A concrete raw contact query returning a single constant point. -/
def sampleContacts : Int → Int → Int → Int → Nat → List (Fin 14 → Nat) :=
  fun _ _ _ _ _ => [fun _ => 7]

/-- Witness for C7: the single raw point is wrapped positionally. -/
theorem getContactPoints_list_witness :
    0 < (sampleContacts (-1) (-1) (-2) (-2) 0).length ∧
      (getContactPoints sampleContacts (-1) (-1) (-2) (-2) 0).get
          ⟨0, by simpa [getContactPoints] using
            (by decide : 0 < (sampleContacts (-1) (-1) (-2) (-2) 0).length)⟩ =
        ContactPoint.ofTuple ((sampleContacts (-1) (-1) (-2) (-2) 0).get
          ⟨0, by decide⟩) :=
  ⟨by decide,
    (getContactPoints_list sampleContacts (-1) (-1) (-2) (-2) 0).2.1 0
      (by decide)⟩
